import Mathlib

/-!
Verification of the client-side core of `generate_web_page.py`
(legistar-monitor): date/time normalization, iCalendar export with
RFC 5545 line folding, pagination and filter/URL synchronization.

All definitions are shallow embeddings of the Python functions and of the
JavaScript functions embedded in the generated page.  Strings are modelled
as Lean `String`/`List Char` (one `Char` per source-code character).
-/

set_option maxRecDepth 8000

namespace Legistar

/-! ## Basic string utilities -/

/-- Value of a decimal digit character. -/
def digitVal (c : Char) : Nat := c.toNat - 48

/-- Decimal digit test, `'0' ≤ c ≤ '9'` stated on code points (matches `\d`
for ASCII). -/
def isDig (c : Char) : Bool := 48 ≤ c.toNat && c.toNat ≤ 57

/-- Fuelled decimal-representation worker (the fuel only drives structural
recursion; `natRepr` supplies enough of it). -/
def natReprAux : Nat → Nat → List Char
  | 0, _ => []
  | fuel + 1, n =>
    if n < 10 then [Nat.digitChar n]
    else natReprAux fuel (n / 10) ++ [Nat.digitChar (n % 10)]

/-- Decimal representation of a natural number as a character list. -/
def natRepr (n : Nat) : List Char := natReprAux (n + 1) n

/-- Decimal representation of an integer (JavaScript number / Python int printing). -/
def intToStr (i : Int) : String :=
  if i < 0 then "-" ++ ⟨natRepr (-i).toNat⟩ else ⟨natRepr i.toNat⟩

/-- Left zero-pad a natural number to two digits (`%02d`, JS `padStart(2,'0')`
never truncates longer values). -/
def pad2 (n : Nat) : String :=
  if n < 10 then ⟨'0' :: natRepr n⟩ else ⟨natRepr n⟩

/-- Left zero-pad to three digits. -/
def pad3 (n : Nat) : String :=
  if n < 10 then ⟨'0' :: '0' :: natRepr n⟩
  else if n < 100 then ⟨'0' :: natRepr n⟩ else ⟨natRepr n⟩

/-- Left zero-pad to four digits. -/
def pad4 (n : Nat) : String :=
  if n < 10 then ⟨'0' :: '0' :: '0' :: natRepr n⟩
  else if n < 100 then ⟨'0' :: '0' :: natRepr n⟩
  else if n < 1000 then ⟨'0' :: natRepr n⟩ else ⟨natRepr n⟩

/-- Boolean test that `p` is a prefix of `s`. -/
def listPrefixB : List Char → List Char → Bool
  | [], _ => true
  | _ :: _, [] => false
  | a :: as, b :: bs => a = b && listPrefixB as bs

/-- Boolean test that `p` occurs as a contiguous run inside `s`. -/
def containsPat (p : List Char) : List Char → Bool
  | [] => listPrefixB p []
  | c :: rest => listPrefixB p (c :: rest) || containsPat p rest

/-- Boolean test that `p` is a suffix of `s`. -/
def listSuffixB (p s : List Char) : Bool := listPrefixB p.reverse s.reverse

/-! ## Proleptic Gregorian calendar arithmetic

Used by both the Python `datetime` embedding and the JavaScript `Date`
embedding.  `daysFromCivil`/`civilFromDays` are the standard closed-form
conversions between a calendar date and a count of days since the Unix
epoch (1970-01-01). -/

/-- Gregorian leap-year test. -/
def isLeap (y : Int) : Bool := (y % 4 = 0 && y % 100 ≠ 0) || y % 400 = 0

/-- Number of days in a month (1..12) of year `y`. -/
def daysInMonth (y : Int) (m : Nat) : Nat :=
  if m = 2 then (if isLeap y then 29 else 28)
  else if m = 4 ∨ m = 6 ∨ m = 9 ∨ m = 11 then 30 else 31

/-- Days since 1970-01-01 of the date `y-m-d` (proleptic Gregorian). -/
def daysFromCivil (y : Int) (m d : Nat) : Int :=
  let y' : Int := y - (if m ≤ 2 then 1 else 0)
  let era : Int := Int.fdiv y' 400
  let yoe : Int := y' - era * 400
  let mp : Int := if m > 2 then (m : Int) - 3 else (m : Int) + 9
  let doy : Int := Int.fdiv (153 * mp + 2) 5 + (d : Int) - 1
  let doe : Int := yoe * 365 + Int.fdiv yoe 4 - Int.fdiv yoe 100 + doy
  era * 146097 + doe - 719468

/-- Inverse of `daysFromCivil`: the date `(y, m, d)` of a day count. -/
def civilFromDays (z0 : Int) : Int × Nat × Nat :=
  let z : Int := z0 + 719468
  let era : Int := Int.fdiv z 146097
  let doe : Int := z - era * 146097
  let yoe : Int := Int.fdiv (doe - Int.fdiv doe 1460 + Int.fdiv doe 36524 - Int.fdiv doe 146096) 365
  let y : Int := yoe + era * 400
  let doy : Int := doe - (365 * yoe + Int.fdiv yoe 4 - Int.fdiv yoe 100)
  let mp : Int := Int.fdiv (5 * doy + 2) 153
  let d : Int := doy - Int.fdiv (153 * mp + 2) 5 + 1
  let m : Int := mp + (if mp < 10 then 3 else -9)
  (y + (if m ≤ 2 then 1 else 0), m.toNat, d.toNat)

/-- An absolute instant, held as broken-down UTC fields (the model of a
valid JavaScript `Date` and of a Python naive `datetime`). -/
structure Instant where
  year : Int
  month : Nat
  day : Nat
  hour : Nat
  minute : Nat
  second : Nat
  ms : Nat
deriving DecidableEq, Repr

/-- Milliseconds since the Unix epoch of an instant. -/
def instantToMs (i : Instant) : Int :=
  daysFromCivil i.year i.month i.day * 86400000
    + (i.hour : Int) * 3600000 + (i.minute : Int) * 60000
    + (i.second : Int) * 1000 + (i.ms : Int)

/-- Instant of a count of milliseconds since the Unix epoch. -/
def msToInstant (t : Int) : Instant :=
  let days : Int := Int.fdiv t 86400000
  let rem : Nat := (t - days * 86400000).toNat
  let ymd := civilFromDays days
  { year := ymd.1, month := ymd.2.1, day := ymd.2.2,
    hour := rem / 3600000, minute := rem / 60000 % 60,
    second := rem / 1000 % 60, ms := rem % 1000 }

/-- Shift an instant by `k` milliseconds (JS `new Date(d.getTime() + k)`). -/
def addMs (k : Int) (i : Instant) : Instant := msToInstant (instantToMs i + k)

/-- JS `Date.prototype.toISOString`: `YYYY-MM-DDTHH:MM:SS.sssZ` (UTC). -/
def toISOString (i : Instant) : String :=
  pad4 i.year.toNat ++ "-" ++ pad2 i.month ++ "-" ++ pad2 i.day ++ "T"
    ++ pad2 i.hour ++ ":" ++ pad2 i.minute ++ ":" ++ pad2 i.second
    ++ "." ++ pad3 i.ms ++ "Z"

/-- The timestamp transformation used throughout `generateICalendar`:
`d.toISOString().replace(/[-:]/g, '').split('.')[0] + 'Z'`. -/
def jsTimestamp (i : Instant) : String :=
  ⟨(((toISOString i).data.filter fun c => ¬ (c = '-' ∨ c = ':')).takeWhile fun c => c ≠ '.') ++ ['Z']⟩

/-! ## Python `datetime` embedding

`datetime.strptime` is modelled at the level of the regular expressions
Python's `_strptime` compiles for each directive (full match required,
`IGNORECASE`, whitespace in the format matching one or more whitespace
characters), followed by the `datetime` constructor's range validation.
Alternatives of a directive's regex are tried in order with backtracking,
modelled by candidate lists. -/

/-- Python regex whitespace class `\s` (ASCII part: space, tab, LF, VT,
FF, CR), stated on code points. -/
def pyWS (c : Char) : Bool :=
  c.toNat = 32 || (9 ≤ c.toNat && c.toNat ≤ 13)

/-- First `f`-hit in a candidate list (regex alternation with backtracking). -/
def firstHit {α β : Type} (f : α → Option β) : List α → Option β
  | [] => none
  | a :: as =>
    match f a with
    | some b => some b
    | none => firstHit f as

/-- Candidates of the `%I`/`%m` regex `(1[0-2]|0[1-9]|[1-9])`: value 1..12. -/
def cands12 : List Char → List (Nat × List Char)
  | c1 :: c2 :: rest =>
    (if c1 = '1' ∧ '0' ≤ c2 ∧ c2 ≤ '2' then [(10 + digitVal c2, rest)] else [])
      ++ (if c1 = '0' ∧ '1' ≤ c2 ∧ c2 ≤ '9' then [(digitVal c2, rest)] else [])
      ++ (if '1' ≤ c1 ∧ c1 ≤ '9' then [(digitVal c1, c2 :: rest)] else [])
  | [c1] => if '1' ≤ c1 ∧ c1 ≤ '9' then [(digitVal c1, [])] else []
  | [] => []

/-- Candidates of the `%H` regex `(2[0-3]|[0-1]\d|\d)`: value 0..23. -/
def candsH : List Char → List (Nat × List Char)
  | c1 :: c2 :: rest =>
    (if c1 = '2' ∧ '0' ≤ c2 ∧ c2 ≤ '3' then [(20 + digitVal c2, rest)] else [])
      ++ (if ('0' ≤ c1 ∧ c1 ≤ '1') ∧ isDig c2 = true then [(10 * digitVal c1 + digitVal c2, rest)] else [])
      ++ (if isDig c1 then [(digitVal c1, c2 :: rest)] else [])
  | [c1] => if isDig c1 then [(digitVal c1, [])] else []
  | [] => []

/-- Candidates of the `%M` regex `([0-5]\d|\d)`: value 0..59. -/
def candsM : List Char → List (Nat × List Char)
  | c1 :: c2 :: rest =>
    (if ('0' ≤ c1 ∧ c1 ≤ '5') ∧ isDig c2 = true then [(10 * digitVal c1 + digitVal c2, rest)] else [])
      ++ (if isDig c1 then [(digitVal c1, c2 :: rest)] else [])
  | [c1] => if isDig c1 then [(digitVal c1, [])] else []
  | [] => []

/-- Candidates of the `%S` regex `(6[0-1]|[0-5]\d|\d)`: value 0..61 (leap
seconds match the regex; the `datetime` constructor then rejects 60..61). -/
def candsS : List Char → List (Nat × List Char)
  | c1 :: c2 :: rest =>
    (if c1 = '6' ∧ '0' ≤ c2 ∧ c2 ≤ '1' then [(60 + digitVal c2, rest)] else [])
      ++ (if ('0' ≤ c1 ∧ c1 ≤ '5') ∧ isDig c2 = true then [(10 * digitVal c1 + digitVal c2, rest)] else [])
      ++ (if isDig c1 then [(digitVal c1, c2 :: rest)] else [])
  | [c1] => if isDig c1 then [(digitVal c1, [])] else []
  | [] => []

/-- Candidates of the `%d` regex `(3[01]|[12]\d|0[1-9]|[1-9])`: value 1..31. -/
def candsDay : List Char → List (Nat × List Char)
  | c1 :: c2 :: rest =>
    (if c1 = '3' ∧ ('0' ≤ c2 ∧ c2 ≤ '1') then [(30 + digitVal c2, rest)] else [])
      ++ (if (c1 = '1' ∨ c1 = '2') ∧ isDig c2 = true then [(10 * digitVal c1 + digitVal c2, rest)] else [])
      ++ (if c1 = '0' ∧ '1' ≤ c2 ∧ c2 ≤ '9' then [(digitVal c2, rest)] else [])
      ++ (if '1' ≤ c1 ∧ c1 ≤ '9' then [(digitVal c1, c2 :: rest)] else [])
  | [c1] => if '1' ≤ c1 ∧ c1 ≤ '9' then [(digitVal c1, [])] else []
  | [] => []

/-- Whitespace in a strptime format string compiles to `\s+`. -/
def skipWS1 : List Char → Option (List Char)
  | [] => none
  | c :: rest => if pyWS c then some (rest.dropWhile pyWS) else none

/-- The `%p` token `(am|pm)` under `IGNORECASE`; `true` means PM. -/
def ampmTok : List Char → Option (Bool × List Char)
  | c1 :: c2 :: rest =>
    if (c1 = 'A' ∨ c1 = 'a') ∧ (c2 = 'M' ∨ c2 = 'm') then some (false, rest)
    else if (c1 = 'P' ∨ c1 = 'p') ∧ (c2 = 'M' ∨ c2 = 'm') then some (true, rest)
    else none
  | _ => none

/-- A wall-clock time of day (hour 0..23). -/
structure TimeHM where
  hour : Nat
  minute : Nat
deriving DecidableEq, Repr

/-- `datetime.strptime(s, '%I:%M %p')`, including the AM/PM hour conversion. -/
def strptimeIMp (s : String) : Option TimeHM :=
  firstHit (fun hr =>
    match hr.2 with
    | ':' :: r2 =>
      firstHit (fun mr =>
        match skipWS1 mr.2 with
        | some r3 =>
          match ampmTok r3 with
          | some (pm, []) =>
            some { hour := if pm then (if hr.1 = 12 then 12 else hr.1 + 12)
                           else (if hr.1 = 12 then 0 else hr.1),
                   minute := mr.1 }
          | _ => none
        | none => none) (candsM r2)
    | _ => none) (cands12 s.data)

/-- `datetime.strptime(s, '%H:%M:%S')` (seconds validated to 0..59 by the
`datetime` constructor; the parsed seconds do not affect the display). -/
def strptimeHMS (s : String) : Option TimeHM :=
  firstHit (fun hr =>
    match hr.2 with
    | ':' :: r2 =>
      firstHit (fun mr =>
        match mr.2 with
        | ':' :: r4 =>
          firstHit (fun sr =>
            if sr.2 = [] ∧ sr.1 ≤ 59 then some { hour := hr.1, minute := mr.1 } else none)
            (candsS r4)
        | _ => none) (candsM r2)
    | _ => none) (candsH s.data)

/-- `datetime.strptime(s, '%H:%M')`. -/
def strptimeHM (s : String) : Option TimeHM :=
  firstHit (fun hr =>
    match hr.2 with
    | ':' :: r2 =>
      firstHit (fun mr => if mr.2 = [] then some { hour := hr.1, minute := mr.1 } else none)
        (candsM r2)
    | _ => none) (candsH s.data)

/-- `strftime('%I:%M %p')` rendering of an hour/minute pair. -/
def strftime12h (h mi : Nat) : String :=
  pad2 (if h % 12 = 0 then 12 else h % 12) ++ ":" ++ pad2 mi ++ (if h < 12 then " AM" else " PM")

/-- Source `get_event_time_display` (generate_web_page.py lines 39-57): the
cascade of `try/except` strptime attempts, returning the raw string when no
format matches and `"Time TBD"` for an absent/empty value. -/
def get_event_time_display (time_str : Option String) : String :=
  match time_str with
  | none => "Time TBD"
  | some s =>
    if s = "" then "Time TBD"
    else
      match strptimeIMp s with
      | some t => strftime12h t.hour t.minute
      | none =>
        match strptimeHMS s with
        | some t => strftime12h t.hour t.minute
        | none =>
          match strptimeHM s with
          | some t => strftime12h t.hour t.minute
          | none => s

/-- A Python `datetime` value (possibly timezone-aware; the offset is kept
in minutes and never affects `strftime`, which prints the stored fields). -/
structure PyDateTime where
  year : Nat
  month : Nat
  day : Nat
  hour : Nat
  minute : Nat
  second : Nat
  micro : Nat
  tzMinutes : Option Int
deriving DecidableEq, Repr

/-- Exactly two decimal digits. -/
def dig2 : List Char → Option (Nat × List Char)
  | a :: b :: r => if isDig a ∧ isDig b then some (10 * digitVal a + digitVal b, r) else none
  | _ => none

/-- Exactly four decimal digits. -/
def dig4 : List Char → Option (Nat × List Char)
  | a :: b :: c :: d :: r =>
    if isDig a ∧ isDig b ∧ isDig c ∧ isDig d then
      some (1000 * digitVal a + 100 * digitVal b + 10 * digitVal c + digitVal d, r)
    else none
  | _ => none

/-- A literal expected character. -/
def expectChar (e : Char) : List Char → Option (List Char)
  | c :: r => if c = e then some r else none
  | _ => none

/-- Fractional seconds of `fromisoformat`: a point followed by exactly 3 or
6 digits, returned as microseconds. -/
def parseFracPy (cs : List Char) : Option (Nat × List Char) :=
  let ds := cs.takeWhile isDig
  let rest := cs.dropWhile isDig
  if ds.length = 3 then some (1000 * ds.foldl (fun a c => 10 * a + digitVal c) 0, rest)
  else if ds.length = 6 then some (ds.foldl (fun a c => 10 * a + digitVal c) 0, rest)
  else none

/-- Timezone tail of `fromisoformat` after the sign: `HH:MM[:SS[.ffffff]]`,
validated to a `timedelta` strictly below 24 hours. -/
def parseTZBody (sign : Int) (cs : List Char) : Option (Option Int × List Char) := do
  let (th, r1) ← dig2 cs
  let r2 ← expectChar ':' r1
  let (tm, r3) ← dig2 r2
  let (ts, r4) ←
    (match r3 with
     | ':' :: rest => do
        let (ts, r) ← dig2 rest
        match r with
        | '.' :: rest2 =>
          let ds := rest2.takeWhile isDig
          if ds.length = 6 then some (ts, rest2.dropWhile isDig) else none
        | _ => some (ts, r)
     | _ => some (0, r3))
  if th * 3600 + tm * 60 + ts ≥ 86400 then none
  else some (some (sign * ((th : Int) * 60 + tm)), r4)

/-- Time-of-day (plus optional offset) part of `fromisoformat`:
`HH[:MM[:SS[.fff or .ffffff]]][(+ or -)HH:MM[:SS[.ffffff]]]`. -/
def fromisoTime (cs : List Char) : Option (Nat × Nat × Nat × Nat × Option Int) := do
  let (hh, r1) ← dig2 cs
  let (mi, ss, us, r5) ←
    (match r1 with
     | ':' :: rest => do
        let (mi, r2) ← dig2 rest
        match r2 with
        | ':' :: rest2 => do
          let (ss, r3) ← dig2 rest2
          match r3 with
          | '.' :: rest3 => do
            let (us, r4) ← parseFracPy rest3
            some (mi, ss, us, r4)
          | _ => some (mi, ss, 0, r3)
        | _ => some (mi, 0, 0, r2)
     | _ => some (0, 0, 0, r1))
  let (tz, r6) ←
    (match r5 with
     | [] => some ((none : Option Int), ([] : List Char))
     | '+' :: rest => parseTZBody 1 rest
     | '-' :: rest => parseTZBody (-1) rest
     | _ => none)
  if r6 ≠ [] then none
  else if hh > 23 ∨ mi > 59 ∨ ss > 59 then none
  else some (hh, mi, ss, us, tz)

/-- Python (≤ 3.10) `datetime.fromisoformat`: a strict `YYYY-MM-DD` date,
optionally followed by one arbitrary separator character and a time part.
A `Z` suffix is not accepted by this version (which is why the source
replaces `Z` with `+00:00` first). -/
def fromisoformat (s : String) : Option PyDateTime := do
  let cs := s.data
  let (y, r1) ← dig4 cs
  let r2 ← expectChar '-' r1
  let (mo, r3) ← dig2 r2
  let r4 ← expectChar '-' r3
  let (d, r5) ← dig2 r4
  if y = 0 ∨ mo = 0 ∨ mo > 12 ∨ d = 0 ∨ d > daysInMonth (y : Int) mo then none
  else
    match r5 with
    | [] => some ⟨y, mo, d, 0, 0, 0, 0, none⟩
    | _ :: tcs =>
      if tcs = [] then none
      else do
        let (hh, mi, ss, us, tz) ← fromisoTime tcs
        some ⟨y, mo, d, hh, mi, ss, us, tz⟩

/-- `datetime.strptime(s, '%Y-%m-%d')`: `\d\d\d\d-%m-%d` with full match and
constructor validation of the day against the month. -/
def strptimeYmd (s : String) : Option PyDateTime := do
  let (y, r1) ← dig4 s.data
  let r2 ← expectChar '-' r1
  firstHit (fun mop =>
    match expectChar '-' mop.2 with
    | some r3 =>
      firstHit (fun dp =>
        if dp.2 = [] ∧ y ≠ 0 ∧ dp.1 ≤ daysInMonth (y : Int) mop.1 then
          some ⟨y, mop.1, dp.1, 0, 0, 0, 0, none⟩
        else none) (candsDay r3)
    | none => none) (cands12 r2)

/-- Day-of-week index with Sunday = 0 (1970-01-01 was a Thursday). -/
def weekdayIndex (y : Int) (m d : Nat) : Nat := ((daysFromCivil y m d + 4).emod 7).toNat

/-- Weekday names for `%A`. -/
def weekdayName : Nat → String
  | 0 => "Sunday" | 1 => "Monday" | 2 => "Tuesday" | 3 => "Wednesday"
  | 4 => "Thursday" | 5 => "Friday" | _ => "Saturday"

/-- Month names for `%B`. -/
def monthName : Nat → String
  | 1 => "January" | 2 => "February" | 3 => "March" | 4 => "April"
  | 5 => "May" | 6 => "June" | 7 => "July" | 8 => "August"
  | 9 => "September" | 10 => "October" | 11 => "November" | _ => "December"

/-- `strftime("%A, %B %d, %Y")`. -/
def strftimeLongDate (dt : PyDateTime) : String :=
  weekdayName (weekdayIndex (dt.year : Int) dt.month dt.day) ++ ", "
    ++ monthName dt.month ++ " " ++ pad2 dt.day ++ ", " ++ pad4 dt.year

/-- `strftime("%A, %B %d, %Y at %I:%M %p")`. -/
def strftimeLongDateTime (dt : PyDateTime) : String :=
  strftimeLongDate dt ++ " at " ++ strftime12h dt.hour dt.minute

/-- `strftime("%m/%d/%Y %I:%M %p")` (first-seen / alert diagnostics). -/
def strftimeMDY (dt : PyDateTime) : String :=
  pad2 dt.month ++ "/" ++ pad2 dt.day ++ "/" ++ pad4 dt.year ++ " "
    ++ strftime12h dt.hour dt.minute

/-- `s.replace('Z', '+00:00')` (every occurrence, as Python's `str.replace`). -/
def replaceZ (s : String) : String :=
  ⟨s.data.foldr (fun c acc =>
      if c = 'Z' then '+' :: '0' :: '0' :: ':' :: '0' :: '0' :: acc else c :: acc) []⟩

/-- Source `format_display_date` (generate_web_page.py lines 24-37): the
timestamp path is chosen when the raw string contains `'T'`, otherwise the
bare-date path; a `ValueError` from parsing falls back to the raw string. -/
def format_display_date (date_str : Option String) (include_time : Bool) : String :=
  match date_str with
  | none => "TBD"
  | some s =>
    if s = "" then "TBD"
    else
      match (if s.data.contains 'T' then fromisoformat (replaceZ s) else strptimeYmd s) with
      | some dt => if include_time then strftimeLongDateTime dt else strftimeLongDate dt
      | none => s

/-! ## `generate_event_card` embedding

Record fields model the JSON dictionaries; an absent key and an explicit
JSON `null` are both modelled as `none` (both are falsy in the source's
`if` tests).  String concatenation follows the source's sequence of
`card_html +=` statements, grouped into the part before the calendar
button, the conditional button itself, and the part after it. -/

/-- Python truthiness of an optional string. -/
def pyTruthy : Option String → Bool
  | none => false
  | some s => s ≠ ""

/-- Python `dict.get(key, default)` for string fields. -/
def pyGet (o : Option String) (dflt : String) : String := o.getD dflt

/-- The `original_event_details_if_rescheduled` sub-dictionary. -/
structure OrigDetails where
  original_date : Option String
  original_time : Option String
deriving DecidableEq, Repr

/-- The `event_data` dictionary of a hearing entry. -/
structure EventData where
  EventId : Option Int
  EventBodyName : Option String
  EventAgendaFile : Option String
  SyntheticMeetingTopic : Option String
  EventDate : Option String
  EventTime : Option String
  EventLocation : Option String
  EventComment : Option String
deriving DecidableEq, Repr

/-- A processed hearing entry as consumed by `generate_event_card`. -/
structure EventEntry where
  event_data : EventData
  user_facing_tags : List String
  current_status : Option String
  first_seen_timestamp : Option String
  original_event_details_if_rescheduled : Option OrigDetails
deriving DecidableEq, Repr

/-- Rendering of `event_data.get("EventId", "unknown")` inside an f-string. -/
def eventIdStr (e : EventEntry) : String :=
  match e.event_data.EventId with
  | some i => intToStr i
  | none => "unknown"

/-- Guard of the calendar button (generate_web_page.py lines 80-82): not an
update card, status exactly `"active"`, and a truthy `EventDate`. -/
def buttonCond (e : EventEntry) (is_update_card : Bool) : Bool :=
  !is_update_card && (e.current_status == some "active") && pyTruthy e.event_data.EventDate

/-- The calendar button markup of line 84. -/
def calendarBtn (e : EventEntry) : String :=
  "<button class=\"btn btn-sm btn-outline-success\" onclick=\"addToCalendar("
    ++ eventIdStr e ++ ")\">" ++ "Add to Calendar" ++ "</button>"

/-- Card markup emitted before the calendar button (lines 64-77). -/
def cardPre (e : EventEntry) : String :=
  "<div class=\"card event-card mb-3\">"
    ++ "<div class=\"card-body\">"
    ++ "<div class=\"card-header-flex\">"
    ++ "<h5 class=\"card-title\">" ++ pyGet e.event_data.EventBodyName "N/A" ++ "</h5>"
    ++ "<div class=\"btn-group-custom\">"
    ++ (if pyTruthy e.event_data.EventAgendaFile then
          "<a href=\"" ++ pyGet e.event_data.EventAgendaFile ""
            ++ "\" target=\"_blank\" class=\"btn btn-sm btn-outline-primary me-1\">View Agenda</a>"
        else "")

/-- Meeting-topic subtitle (lines 89-91). -/
def topicHtml (e : EventEntry) : String :=
  if pyTruthy e.event_data.SyntheticMeetingTopic then
    "<h6 class=\"card-subtitle mb-2 text-muted\">"
      ++ pyGet e.event_data.SyntheticMeetingTopic "" ++ "</h6>"
  else ""

/-- First-seen diagnostic line (lines 94-101), with the `ValueError`
fallback to the raw timestamp. -/
def firstSeenHtml (e : EventEntry) (is_update_card : Bool) : String :=
  if pyTruthy e.first_seen_timestamp && !is_update_card then
    match fromisoformat (replaceZ (pyGet e.first_seen_timestamp "")) with
    | some dt =>
      "<p class=\"card-text small text-muted mb-1\"><em>First seen: "
        ++ strftimeMDY dt ++ "</em></p>"
    | none =>
      "<p class=\"card-text small text-muted mb-1\"><em>First seen: "
        ++ pyGet e.first_seen_timestamp "" ++ "</em></p>"
  else ""

/-- Tag badges for upcoming hearings (lines 104-116). -/
def tagsHtml (e : EventEntry) (is_update_card : Bool) : String :=
  if !is_update_card && !e.user_facing_tags.isEmpty then
    let tag_html :=
      (if e.user_facing_tags.contains "new_hearing_tag" then
        "<span class=\"badge bg-success me-1\">NEW</span>" else "")
      ++ (match e.original_event_details_if_rescheduled with
          | some orig =>
            if e.user_facing_tags.contains "rescheduled_hearing_tag" then
              "<span class=\"badge bg-info me-1\">RESCHEDULED (was "
                ++ format_display_date orig.original_date false ++ " "
                ++ get_event_time_display orig.original_time ++ ")</span>"
            else ""
          | none => "")
      ++ (if e.user_facing_tags.contains "deferred_hearing_tag" then
        "<span class=\"badge bg-warning me-1\">DEFERRED</span>" else "")
    if tag_html ≠ "" then "<p class=\"card-text small\">" ++ tag_html ++ "</p>" else ""
  else ""

/-- Date/time/location block (lines 118-140), split on the deferred
statuses. -/
def detailsHtml (e : EventEntry) : String :=
  if e.current_status = some "deferred_pending_match" ∨ e.current_status = some "deferred_nomatch" then
    "<p class=\"card-text\"><strong>Original Date:</strong> <del>"
      ++ format_display_date e.event_data.EventDate false ++ "</del> "
      ++ get_event_time_display e.event_data.EventTime ++ "</p>"
      ++ (if e.current_status = some "deferred_pending_match" then
            "<p class=\"card-text\"><em>Reschedule: Awaiting information</em></p>"
          else "<p class=\"card-text\"><em>Reschedule: None found after grace period</em></p>")
  else
    "<div class=\"card-details-flex\">"
      ++ "<p class=\"detail-item\"><strong>Date:</strong> "
      ++ format_display_date e.event_data.EventDate false ++ "</p>"
      ++ "<p class=\"detail-item\"><strong>Time:</strong> "
      ++ get_event_time_display e.event_data.EventTime ++ "</p>"
      ++ "<p class=\"detail-item\"><strong>Location:</strong> "
      ++ pyGet e.event_data.EventLocation "TBD" ++ "</p>"
      ++ "</div>"

/-- Comment line (lines 143-145). -/
def commentHtml (e : EventEntry) : String :=
  if pyTruthy e.event_data.EventComment then
    "<p class=\"card-text fst-italic\"><small>Comment: "
      ++ pyGet e.event_data.EventComment "" ++ "</small></p>"
  else ""

/-- Card markup emitted after the calendar button (lines 86-147). -/
def cardPost (e : EventEntry) (is_update_card : Bool) : String :=
  "</div></div>"
    ++ topicHtml e ++ firstSeenHtml e is_update_card ++ tagsHtml e is_update_card
    ++ detailsHtml e ++ commentHtml e ++ "</div></div>"

/-- Source `generate_event_card` (generate_web_page.py lines 59-148). -/
def generate_event_card (e : EventEntry) (is_update_card : Bool) : String :=
  cardPre e ++ (if buttonCond e is_update_card then calendarBtn e else "")
    ++ cardPost e is_update_card

/-! ## JavaScript layer embedding

Models of the script embedded in the generated page.  `new Date(string)`
is modelled by the ECMAScript Date Time String Format (the only portable
behaviour; implementation-specific heuristic fallbacks are treated as
Invalid Date, i.e. `none`), with the host timezone taken to be UTC.
A JavaScript exception escaping a function is modelled as `none`. -/

/-- JavaScript `\s` / `parseInt` leading-whitespace class (ASCII part:
space, tab, LF, VT, FF, CR), stated on code points. -/
def jsWS (c : Char) : Bool :=
  c.toNat = 32 || (9 ≤ c.toNat && c.toNat ≤ 13)

/-- An event record as written by `populateEventData` (all string fields
are always present, possibly empty). -/
structure JSEvent where
  EventId : Int
  EventBodyName : String
  EventDate : String
  EventTime : String
  EventLocation : String
  SyntheticMeetingTopic : String
  EventComment : String
deriving DecidableEq, Repr

/-- Offset part `HH:MM` of an ECMAScript date-time string, in minutes. -/
def jsOffset (sign : Int) (cs : List Char) : Option (Int × List Char) := do
  let (oh, r1) ← dig2 cs
  let r2 ← expectChar ':' r1
  let (om, r3) ← dig2 r2
  if oh > 23 ∨ om > 59 then none
  else some (sign * ((oh : Int) * 60 + om), r3)

/-- ECMAScript `new Date("YYYY-MM-DDTHH:MM[:SS[.sss]][Z or +-HH:MM]")`;
`none` is Invalid Date.  Out-of-range components (including a day past the
month's end) are invalid; hour 24 is only valid at exactly `24:00[:00]`. -/
def jsNewDate (s : String) : Option Instant := do
  let cs := s.data
  let (y, r1) ← dig4 cs
  let r2 ← expectChar '-' r1
  let (mo, r3) ← dig2 r2
  let r4 ← expectChar '-' r3
  let (d, r5) ← dig2 r4
  let r6 ← expectChar 'T' r5
  let (hh, r7) ← dig2 r6
  let r8 ← expectChar ':' r7
  let (mi, r9) ← dig2 r8
  let (ss, ms, r10) ←
    (match r9 with
     | ':' :: rest => do
        let (ss, ra) ← dig2 rest
        match ra with
        | '.' :: rest2 =>
          let ds := rest2.takeWhile isDig
          if ds.length = 3 then
            some (ss, ds.foldl (fun a c => 10 * a + digitVal c) 0, rest2.dropWhile isDig)
          else none
        | _ => some (ss, 0, ra)
     | _ => some (0, 0, r9))
  let (offMin, r11) ←
    (match r10 with
     | [] => some ((0 : Int), ([] : List Char))
     | 'Z' :: rest => some ((0 : Int), rest)
     | '+' :: rest => jsOffset 1 rest
     | '-' :: rest => jsOffset (-1) rest
     | _ => none)
  if r11 ≠ [] then none
  else if mo = 0 ∨ mo > 12 ∨ d = 0 ∨ d > daysInMonth (y : Int) mo ∨ mi > 59 ∨ ss > 59 then none
  else if hh > 24 ∨ (hh = 24 ∧ (mi ≠ 0 ∨ ss ≠ 0 ∨ ms ≠ 0)) then none
  else some (msToInstant (daysFromCivil (y : Int) mo d * 86400000
    + (hh : Int) * 3600000 + (mi : Int) * 60000 + (ss : Int) * 1000 + (ms : Int)
    - offMin * 60000))

/-- Attempt of the regex `(\d{1,2}):(\d{2})\s*(AM|PM)` (case-insensitive)
at the start of `cs`, with the greedy 2-then-1 digit backtracking of the
first group.  Returns (hour group, minute group, is-PM). -/
def timeMatchAt (cs : List Char) : Option (Nat × Nat × Bool) :=
  let cont := fun (h : Nat) (r : List Char) =>
    match r with
    | ':' :: d1 :: d2 :: r2 =>
      if isDig d1 ∧ isDig d2 then
        match ampmTok (r2.dropWhile jsWS) with
        | some (pm, _) => some (h, 10 * digitVal d1 + digitVal d2, pm)
        | none => none
      else none
    | _ => none
  match cs with
  | c1 :: c2 :: rest =>
    if isDig c1 ∧ isDig c2 then
      match cont (10 * digitVal c1 + digitVal c2) rest with
      | some x => some x
      | none => cont (digitVal c1) (c2 :: rest)
    else if isDig c1 then cont (digitVal c1) (c2 :: rest)
    else none
  | _ => none

/-- `timeStr.match(/(\d{1,2}):(\d{2})\s*(AM|PM)/i)`: first position where
the pattern matches, scanning left to right. -/
def findTimeMatch : List Char → Option (Nat × Nat × Bool)
  | [] => none
  | c :: rest =>
    match timeMatchAt (c :: rest) with
    | some x => some x
    | none => findTimeMatch rest

/-- Source `parseEventDateTime` (page script): `new Date()` for a falsy
date; noon for a falsy time; the AM/PM regex path; else the date and time
joined verbatim.  The source's `try/catch` is dead code because
`new Date` returns an Invalid Date instead of throwing. -/
def parseEventDateTime (dateStr timeStr : String) (now : Instant) : Option Instant :=
  if dateStr = "" then some now
  else
    let datePart : String := ⟨dateStr.data.takeWhile (· ≠ 'T')⟩
    if timeStr = "" then jsNewDate (datePart ++ "T12:00:00")
    else
      match findTimeMatch timeStr.data with
      | some (h, mi, pm) =>
        let hours : Nat := if pm ∧ h ≠ 12 then h + 12 else if ¬ pm ∧ h = 12 then 0 else h
        jsNewDate (datePart ++ "T" ++ pad2 hours ++ ":" ++ pad2 mi ++ ":00")
      | none => jsNewDate (datePart ++ "T" ++ timeStr)

/-- Fuelled worker for the folding loop (the fuel only drives structural
recursion; `wrapRest` supplies enough of it). -/
def wrapRestAux : Nat → List Char → List Char
  | 0, _ => []
  | fuel + 1, r =>
    if r.isEmpty then []
    else '\r' :: '\n' :: ' ' :: (r.take 74 ++ wrapRestAux fuel (r.drop 74))

/-- Loop body of `wrapICalLine`: while text remains, emit CRLF, a space,
and the next 74 characters. -/
def wrapRest (r : List Char) : List Char := wrapRestAux r.length r

/-- Source `wrapICalLine` on character lists: lines of at most 75
characters are returned unchanged; longer lines are cut at 75 and folded. -/
def wrapLC (l : List Char) : List Char :=
  if l.length ≤ 75 then l else l.take 75 ++ wrapRest (l.drop 75)

/-- Source `wrapICalLine`. -/
def wrapICalLine (line : String) : String := ⟨wrapLC line.data⟩

/-- Description assembly inside `generateICalendar`: the topic (or the
default), then an appended comment paragraph. -/
def jsDescription (ev : JSEvent) : String :=
  (if ev.SyntheticMeetingTopic ≠ "" then ev.SyntheticMeetingTopic else "NYC Council Hearing")
    ++ (if ev.EventComment ≠ "" then "\n\nComment: " ++ ev.EventComment else "")

/-- JS `array.join('\r\n')`. -/
def icalJoin : List String → String
  | [] => ""
  | [a] => a
  | a :: b :: rest => a ++ "\r\n" ++ icalJoin (b :: rest)

/-- Source `generateICalendar`.  `none` models the `RangeError` thrown by
`toISOString()` on an Invalid Date (no escaping of text values is
performed by the source; values are only line-folded). -/
def generateICalendar (ev : JSEvent) (now : Instant) : Option String :=
  let timestamp := jsTimestamp now
  match parseEventDateTime ev.EventDate ev.EventTime now with
  | none => none
  | some eventDateTime =>
    let startTime := jsTimestamp eventDateTime
    let endDateTime := addMs (60 * 60 * 1000) eventDateTime
    let endTime := jsTimestamp endDateTime
    let uid := startTime ++ "-" ++ intToStr ev.EventId ++ "@legistar-monitor.github.io"
    let description := jsDescription ev
    some (icalJoin
      ["BEGIN:VCALENDAR",
       "VERSION:2.0",
       "PRODID:-//NYC Legistar Monitor//Hearing Calendar 1.0//EN",
       "METHOD:PUBLISH",
       "BEGIN:VEVENT",
       "UID:" ++ uid,
       "DTSTAMP:" ++ timestamp,
       "DTSTART:" ++ startTime,
       "DTEND:" ++ endTime,
       wrapICalLine ("SUMMARY:" ++ ev.EventBodyName),
       wrapICalLine ("DESCRIPTION:" ++ description),
       wrapICalLine ("LOCATION:" ++ (if ev.EventLocation ≠ "" then ev.EventLocation else "TBD")),
       "END:VEVENT",
       "END:VCALENDAR"])

/-- Observable outcome of `addToCalendar`. -/
inductive CalAction where
  | alertNotFound
  | download (filename : String) (content : String)
deriving DecidableEq, Repr

/-- Source `addToCalendar`: alert when the id is missing from `eventData`,
otherwise a download of `hearing-<eventId>.ics`; `none` models the
uncaught exception from `generateICalendar`. -/
def addToCalendar (eventData : Int → Option JSEvent) (eventId : Int) (now : Instant) :
    Option CalAction :=
  match eventData eventId with
  | none => some .alertNotFound
  | some ev =>
    (generateICalendar ev now).map
      (fun ical => .download ("hearing-" ++ intToStr eventId ++ ".ics") ical)

/-- Filename of a triggered download, when one happened. -/
def actionFilename : Option CalAction → Option String
  | some (.download f _) => some f
  | _ => none

/-- Digit-prefix accumulator of `parseInt`. -/
def digitsLoop (acc : Nat) : List Char → Nat
  | [] => acc
  | c :: rest => if isDig c then digitsLoop (10 * acc + digitVal c) rest else acc

/-- Value of a leading digit run, requiring at least one digit. -/
def leadNat : List Char → Option Nat
  | [] => none
  | c :: rest => if isDig c then some (digitsLoop 0 (c :: rest)) else none

/-- JS `parseInt(s)` (radix 10; the `0x` hexadecimal autodetection is not
modelled — page parameters are decimal).  `none` is `NaN`. -/
def jsParseInt (s : String) : Option Int :=
  match s.data.dropWhile jsWS with
  | [] => none
  | c :: rest =>
    if c = '-' then (leadNat rest).map (fun n => -(n : Int))
    else if c = '+' then (leadNat rest).map (fun n => (n : Int))
    else (leadNat (c :: rest)).map (fun n => (n : Int))

/-- `parseInt(urlParams.get('page')) || 1`: `NaN` (including a missing
parameter) and `0` are falsy and default to 1. -/
def jsParseIntOr1 (o : Option String) : Int :=
  match o with
  | none => 1
  | some s =>
    match jsParseInt s with
    | none => 1
    | some k => if k = 0 then 1 else k

/-- The document URL's managed query parameters; `others` stands for all
query parameters the script never touches. -/
structure URLState where
  filter : Option String
  page : Option String
  others : List (String × String)
deriving DecidableEq, Repr

/-- Source `updateURL`: always set `filter`; set `page` only when it
exceeds 1, else delete it; then `history.replaceState`. -/
def updateURL (filter : String) (page : Int) (u : URLState) : URLState :=
  { u with filter := some filter,
           page := if page > 1 then some (intToStr page) else none }

/-- State of the page script's mutable variables plus the DOM facts the
handlers read and write (per-card visibility, the active updates section,
the select control's value, the URL). -/
structure PageState where
  currentPage : Int
  itemsPerPage : Nat
  totalPages : Int
  display : List Bool
  activeSection : String
  filterSel : String
  url : URLState
deriving DecidableEq, Repr

/-- Source `showUpdatesSection`: the section with the given name becomes
the only one with the `active` class. -/
def showUpdatesSection (sectionName : String) (st : PageState) : PageState :=
  { st with activeSection := sectionName }

/-- Source `updateFilter`, as invoked from the select control's change
listener (the control's value is the new filter): show the section, then
rewrite the URL with the current page. -/
def updateFilter (filterValue : String) (st : PageState) : PageState :=
  let st1 := showUpdatesSection filterValue { st with filterSel := filterValue }
  { st1 with url := updateURL filterValue st1.currentPage st1.url }

/-- Source `showPage`: display exactly the cards with index in
`[(page-1)*itemsPerPage, page*itemsPerPage)`, set `currentPage := page`
(without clamping), and rewrite the URL.  (`updatePagination` only
redraws the navigation controls.) -/
def showPage (page : Int) (st : PageState) : PageState :=
  let startIndex : Int := (page - 1) * (st.itemsPerPage : Int)
  let endIndex : Int := startIndex + (st.itemsPerPage : Int)
  let display := (List.range st.display.length).map
    (fun i => decide (startIndex ≤ (i : Int)) && decide ((i : Int) < endIndex))
  let st1 := { st with display := display, currentPage := page }
  { st1 with url := updateURL st1.filterSel page st1.url }

/-- `Math.ceil(a / b)` for natural inputs, `b > 0`. -/
def ceilDiv (a b : Nat) : Nat := (a + b - 1) / b

/-- Source `initializePagination`: count the cards, derive `totalPages`,
clamp the URL's page parameter into `[1, totalPages]`, and show that
page. -/
def initializePagination (nItems : Nat) (st : PageState) : PageState :=
  let totalPages : Int := (ceilDiv nItems st.itemsPerPage : Nat)
  let urlPage : Int := jsParseIntOr1 st.url.page
  let cp : Int := max 1 (min urlPage totalPages)
  showPage cp { st with totalPages := totalPages, currentPage := cp,
                        display := List.replicate nItems false }

/-! ## Analysis functions for folding, and spec-side comparators -/

/-- Physical lines of a character stream: split at every CRLF pair
(scanning left to right; a lone CR or LF does not split). -/
def splitCRLF : List Char → List (List Char)
  | [] => [[]]
  | [c] => [[c]]
  | c1 :: c2 :: rest =>
    if c1 = '\r' ∧ c2 = '\n' then [] :: splitCRLF rest
    else
      match splitCRLF (c2 :: rest) with
      | [] => [[c1]]
      | l :: ls => (c1 :: l) :: ls

/-- The spec's rejoining operation: remove every CRLF-plus-single-leading-
space sequence, scanning left to right. -/
def unfoldICal : List Char → List Char
  | [] => []
  | [c] => [c]
  | [c1, c2] => [c1, c2]
  | c1 :: c2 :: c3 :: rest =>
    if c1 = '\r' ∧ c2 = '\n' ∧ c3 = ' ' then unfoldICal rest
    else c1 :: unfoldICal (c2 :: c3 :: rest)

/-- Whether the character stream contains the three-character sequence
CR LF SPACE. -/
def hasCRLFSP : List Char → Bool
  | c1 :: c2 :: c3 :: rest =>
    (c1 = '\r' && c2 = '\n' && c3 = ' ') || hasCRLFSP (c2 :: c3 :: rest)
  | _ => false

/-- Modelled from the spec: the iCalendar text-escaping rule (backslash,
comma and semicolon backslash-escaped; a literal newline becomes the
two-character sequence backslash-n).  The source performs no such
escaping; this definition exists only to compare the two. -/
def specEscapeICalText (s : String) : String :=
  ⟨s.data.foldr (fun c acc =>
      if c = '\\' then '\\' :: '\\' :: acc
      else if c = ',' then '\\' :: ',' :: acc
      else if c = ';' then '\\' :: ';' :: acc
      else if c = '\n' then '\\' :: 'n' :: acc
      else c :: acc) []⟩

/-- Modelled from the spec: an ordered list of candidate parsers, tried in
sequence, first success wins. -/
def firstSuccess {α : Type} (parsers : List (String → Option α)) (s : String) : Option α :=
  match parsers with
  | [] => none
  | p :: ps =>
    match p s with
    | some v => some v
    | none => firstSuccess ps s

/-! ## Concrete values for the closed instantiations -/

/-- A fixed "now" instant used by the concrete evaluations. -/
def now0 : Instant := ⟨2025, 1, 15, 12, 0, 0, 0⟩

/-- An event whose topic contains a comma. -/
def c1Event : JSEvent := ⟨7, "Land Use", "2024-03-05", "10:00 AM", "", "a,b", ""⟩

/-- The parsed start instant of `c1Event`. -/
def c1Instant : Instant := ⟨2024, 3, 5, 10, 0, 0, 0⟩

/-- An event whose date string is not parseable. -/
def c3Event : JSEvent := ⟨9, "Finance", "Not scheduled", "", "", "", ""⟩

/-- An event with a committee name and a date, for the filename check. -/
def c8Event : JSEvent :=
  ⟨123, "Committee on Finance", "2024-03-05", "10:00 AM", "250 Broadway", "", ""⟩

/-- An `eventData` table holding only `c8Event`. -/
def c8Map : Int → Option JSEvent := fun i => if i = 123 then some c8Event else none

/-- A fresh page state whose URL asks for page 9. -/
def st0 : PageState := ⟨1, 25, 1, [], "", "since_last_run", ⟨none, some "9", []⟩⟩

/-- A page state sitting on page 4 of the hearings list. -/
def st9 : PageState :=
  ⟨4, 25, 3, List.replicate 57 false, "updates-since-last-run", "since_last_run",
   ⟨some "since_last_run", some "4", []⟩⟩

/-- A folding input that already contains CR LF SPACE. -/
def c6cex : List Char := ['a', '\r', '\n', ' ', 'b']

/-- A 100-character folding input. -/
def c6wit : List Char := List.replicate 100 'x'

/-- An active, dated entry used to instantiate the button theorem. -/
def c10Entry : EventEntry :=
  ⟨⟨some 5, some "Committee on Rules", none, none, some "2024-03-05", some "10:00 AM",
    some "City Hall", none⟩, [], some "active", none, none⟩

/-! ## Supporting lemmas -/

theorem dataAppend (s t : String) : (s ++ t).data = s.data ++ t.data := by
  cases s; cases t; rfl

theorem listPrefixB_self_append (p t : List Char) : listPrefixB p (p ++ t) = true := by
  induction p with
  | nil => rfl
  | cons a as ih => simp [listPrefixB, ih]

theorem containsPat_of_prefixB (p s : List Char) (h : listPrefixB p s = true) :
    containsPat p s = true := by
  cases s with
  | nil => simpa [containsPat] using h
  | cons c rest => simp [containsPat, h]

theorem containsPat_append_left (a p s : List Char) (h : containsPat p s = true) :
    containsPat p (a ++ s) = true := by
  induction a with
  | nil => simpa using h
  | cons c as ih => simp [containsPat, ih]

theorem containsPat_self_append (p t : List Char) : containsPat p (p ++ t) = true :=
  containsPat_of_prefixB _ _ (listPrefixB_self_append p t)

theorem listSuffixB_append_self (a p : List Char) : listSuffixB p (a ++ p) = true := by
  simpa [listSuffixB, List.reverse_append] using listPrefixB_self_append p.reverse a.reverse

theorem isDig_not_jsWS (c : Char) (h : isDig c = true) : jsWS c = false := by
  simp [isDig] at h
  simp [jsWS]
  omega

theorem digitChar_isDig (d : Nat) (h : d < 10) : isDig (Nat.digitChar d) = true := by
  interval_cases d <;> decide

theorem digitVal_digitChar (d : Nat) (h : d < 10) : digitVal (Nat.digitChar d) = d := by
  interval_cases d <;> decide

theorem natReprAux_congr : ∀ (f1 : Nat) (n : Nat), n < f1 → ∀ f2, n < f2 →
    natReprAux f1 n = natReprAux f2 n := by
  intro f1
  induction f1 using Nat.strong_induction_on with
  | _ f1 ih =>
    intro n hn f2 hn2
    match f1, hn with
    | f1' + 1, _ =>
      match f2, hn2 with
      | f2' + 1, _ =>
        show (if n < 10 then _ else natReprAux f1' (n / 10) ++ _) =
          (if n < 10 then _ else natReprAux f2' (n / 10) ++ _)
        split
        · rfl
        · rename_i h10
          have hd : n / 10 < n := Nat.div_lt_self (by omega) (by omega)
          rw [ih f1' (by omega) (n / 10) (by omega) f2' (by omega)]

theorem natRepr_eq (n : Nat) : natRepr n =
    if n < 10 then [Nat.digitChar n]
    else natRepr (n / 10) ++ [Nat.digitChar (n % 10)] := by
  show natReprAux (n + 1) n = _
  show (if n < 10 then _ else natReprAux n (n / 10) ++ _) = _
  split
  · rfl
  · rename_i h10
    have hd : n / 10 < n := Nat.div_lt_self (by omega) (by omega)
    rw [natReprAux_congr n (n / 10) (by omega) (n / 10 + 1) (by omega)]
    rfl

theorem natRepr_ne_nil (n : Nat) : natRepr n ≠ [] := by
  rw [natRepr_eq]
  split <;> simp

theorem natRepr_digits (n : Nat) : ∀ c ∈ natRepr n, isDig c = true := by
  induction n using Nat.strong_induction_on with
  | _ n ih =>
    rw [natRepr_eq]
    split
    · rename_i h
      intro c hc
      simp at hc
      subst hc
      exact digitChar_isDig n h
    · rename_i h
      intro c hc
      simp at hc
      rcases hc with hc | hc
      · exact ih (n / 10) (Nat.div_lt_self (by omega) (by omega)) c hc
      · subst hc
        exact digitChar_isDig _ (Nat.mod_lt _ (by omega))

theorem digitsLoop_append (xs ys : List Char) (acc : Nat)
    (h : ∀ c ∈ xs, isDig c = true) :
    digitsLoop acc (xs ++ ys) = digitsLoop (digitsLoop acc xs) ys := by
  induction xs generalizing acc with
  | nil => simp [digitsLoop]
  | cons c cs ih =>
    have hc : isDig c = true := h c (by simp)
    simp [digitsLoop, hc]
    exact ih _ (fun x hx => h x (by simp [hx]))

theorem digitsLoop_natRepr (n : Nat) : ∀ acc, digitsLoop acc (natRepr n) =
    acc * 10 ^ (natRepr n).length + n := by
  induction n using Nat.strong_induction_on with
  | _ n ih =>
    intro acc
    rw [natRepr_eq]
    split
    · rename_i h
      simp [digitsLoop, digitChar_isDig n h, digitVal_digitChar n h]
      ring
    · rename_i h
      rw [digitsLoop_append _ _ _ (natRepr_digits (n / 10))]
      have hmod : n % 10 < 10 := Nat.mod_lt _ (by omega)
      have hdiv : n / 10 < n := Nat.div_lt_self (by omega) (by omega)
      simp [digitsLoop, digitChar_isDig _ hmod, digitVal_digitChar _ hmod,
            ih (n / 10) hdiv acc]
      rw [pow_succ]
      have := Nat.div_add_mod n 10
      ring_nf
      omega

theorem digitsLoop_natRepr_zero (n : Nat) : digitsLoop 0 (natRepr n) = n := by
  simpa using digitsLoop_natRepr n 0

theorem jsParseInt_digits (c : Char) (rest : List Char) (hc : isDig c = true) :
    jsParseInt ⟨c :: rest⟩ = some ((digitsLoop 0 (c :: rest) : Nat) : Int) := by
  have hdrop : (c :: rest).dropWhile jsWS = c :: rest := by
    rw [List.dropWhile_cons, isDig_not_jsWS c hc]
    simp
  have hcm : ¬ c = '-' := by
    intro hcc
    subst hcc
    simp [isDig] at hc
  have hcp : ¬ c = '+' := by
    intro hcc
    subst hcc
    simp [isDig] at hc
  unfold jsParseInt
  rw [show (⟨c :: rest⟩ : String).data = c :: rest from rfl, hdrop]
  simp [hcm, hcp, leadNat, hc]

theorem jsParseInt_natRepr (n : Nat) : jsParseInt ⟨natRepr n⟩ = some (n : Int) := by
  rcases hrep : natRepr n with _ | ⟨c, rest⟩
  · exact absurd hrep (natRepr_ne_nil n)
  · have hc : isDig c = true := by
      have := natRepr_digits n c
      rw [hrep] at this
      exact this (by simp)
    rw [jsParseInt_digits c rest hc]
    have hz := digitsLoop_natRepr_zero n
    rw [hrep] at hz
    rw [hz]

theorem wrapRestAux_congr (n : Nat) : ∀ (r : List Char), r.length ≤ n →
    ∀ f1 f2, r.length ≤ f1 → r.length ≤ f2 → wrapRestAux f1 r = wrapRestAux f2 r := by
  induction n using Nat.strong_induction_on with
  | _ n ih =>
    intro r hrn f1 f2 h1 h2
    cases r with
    | nil => cases f1 <;> cases f2 <;> simp [wrapRestAux]
    | cons c cs =>
      obtain ⟨f1', rfl⟩ : ∃ k, f1 = k + 1 := ⟨f1 - 1, by simp at h1; omega⟩
      obtain ⟨f2', rfl⟩ : ∃ k, f2 = k + 1 := ⟨f2 - 1, by simp at h2; omega⟩
      have hrec := ih ((c :: cs).drop 74).length (by simp at hrn ⊢ <;> omega)
        ((c :: cs).drop 74) le_rfl f1' f2' (by simp at h1 ⊢ <;> omega)
        (by simp at h2 ⊢ <;> omega)
      show (if (c :: cs).isEmpty then []
          else '\r' :: '\n' :: ' ' :: ((c :: cs).take 74 ++ wrapRestAux f1' ((c :: cs).drop 74)))
        = (if (c :: cs).isEmpty then []
          else '\r' :: '\n' :: ' ' :: ((c :: cs).take 74 ++ wrapRestAux f2' ((c :: cs).drop 74)))
      rw [hrec]

theorem wrapRest_eq (r : List Char) :
    wrapRest r = if r.isEmpty then []
      else '\r' :: '\n' :: ' ' :: (r.take 74 ++ wrapRest (r.drop 74)) := by
  cases r with
  | nil => rfl
  | cons c cs =>
    have hrec := wrapRestAux_congr cs.length ((c :: cs).drop 74) (by simp <;> omega)
      cs.length ((c :: cs).drop 74).length (by simp <;> omega) le_rfl
    show wrapRestAux (cs.length + 1) (c :: cs) = _
    show (if (c :: cs).isEmpty then []
      else '\r' :: '\n' :: ' ' :: ((c :: cs).take 74 ++ wrapRestAux cs.length ((c :: cs).drop 74))) = _
    rw [hrec]
    rfl

theorem splitCRLF_ne_nil (xs : List Char) : splitCRLF xs ≠ [] := by
  induction xs using splitCRLF.induct with
  | case1 => simp [splitCRLF]
  | case2 c => simp [splitCRLF]
  | case3 c1 c2 rest h ihs =>
    obtain ⟨rfl, rfl⟩ := h
    simp [splitCRLF]
  | case4 c1 c2 rest h hnil ihs => exact absurd hnil ihs
  | case5 c1 c2 rest h l ls hcons ihs => simp [splitCRLF, h, hcons]

theorem splitCRLF_len (xs : List Char) : ∀ l ∈ splitCRLF xs, l.length ≤ xs.length := by
  induction xs using splitCRLF.induct with
  | case1 =>
    intro l hl
    simp [splitCRLF] at hl
    simp [hl]
  | case2 c =>
    intro l hl
    simp [splitCRLF] at hl
    simp [hl]
  | case3 c1 c2 rest h ihs =>
    obtain ⟨rfl, rfl⟩ := h
    intro l hl
    simp only [splitCRLF, if_pos (And.intro rfl rfl)] at hl
    rcases List.mem_cons.mp hl with hl | hl
    · simp [hl]
    · have := ihs l hl
      simp at this ⊢
      omega
  | case4 c1 c2 rest h hnil ihs => exact absurd hnil (splitCRLF_ne_nil _)
  | case5 c1 c2 rest h l ls hcons ihs =>
    intro m hm
    simp only [splitCRLF, if_neg h, hcons] at hm
    rcases List.mem_cons.mp hm with hm | hm
    · subst hm
      have := ihs l (by rw [hcons]; simp)
      simp at this ⊢
      omega
    · have := ihs m (by rw [hcons]; simp [hm])
      simp at this ⊢
      omega

theorem splitCRLF_append_crlf (ys : List Char) : ∀ (xs : List Char),
    splitCRLF (xs ++ '\r' :: '\n' :: ys) = splitCRLF xs ++ splitCRLF ys := by
  intro xs
  induction xs using splitCRLF.induct with
  | case1 => simp [splitCRLF]
  | case2 c =>
    have hc : ¬(c = '\r' ∧ ('\r' : Char) = '\n') := by
      rintro ⟨_, h2⟩
      exact absurd h2 (by decide)
    simp [splitCRLF, hc]
  | case3 c1 c2 rest h ihs =>
    obtain ⟨rfl, rfl⟩ := h
    simp [splitCRLF, ihs]
  | case4 c1 c2 rest h hnil ihs => exact absurd hnil (splitCRLF_ne_nil _)
  | case5 c1 c2 rest h l ls hcons ihs =>
    have hl : splitCRLF (c2 :: (rest ++ '\r' :: '\n' :: ys)) = l :: (ls ++ splitCRLF ys) := by
      rw [show c2 :: (rest ++ '\r' :: '\n' :: ys) = (c2 :: rest) ++ '\r' :: '\n' :: ys from rfl,
        ihs, hcons]
      rfl
    simp [splitCRLF, if_neg h, hl, hcons]

theorem hasCRLFSP_cons_true (x : Char) (l : List Char) (h : hasCRLFSP l = true) :
    hasCRLFSP (x :: l) = true := by
  match l, h with
  | c1 :: c2 :: c3 :: rest, h =>
    show ((x = '\r' && c1 = '\n' && c2 = ' ') || hasCRLFSP (c1 :: c2 :: c3 :: rest)) = true
    simp [h]
  | [], h => simp [hasCRLFSP] at h
  | [c], h => simp [hasCRLFSP] at h
  | [c, d], h => simp [hasCRLFSP] at h

theorem hasCRLFSP_append_right (a b : List Char) (h : hasCRLFSP b = true) :
    hasCRLFSP (a ++ b) = true := by
  induction a with
  | nil => simpa
  | cons x a' ihs => exact hasCRLFSP_cons_true x _ ihs

theorem hasCRLFSP_append_left (a b : List Char) : hasCRLFSP a = true →
    hasCRLFSP (a ++ b) = true := by
  induction a using hasCRLFSP.induct with
  | case1 c1 c2 c3 rest ihs =>
    intro h
    show ((c1 = '\r' && c2 = '\n' && c3 = ' ') || hasCRLFSP (c2 :: c3 :: (rest ++ b))) = true
    have h' : ((c1 = '\r' && c2 = '\n' && c3 = ' ') || hasCRLFSP (c2 :: c3 :: rest)) = true := h
    rcases Bool.or_eq_true_iff.mp h' with hx | hx
    · simp [hx]
    · have := ihs hx
      simp only [List.cons_append] at this
      simp [this]
  | case2 t ht =>
    intro h
    exfalso
    match t, ht with
    | [], _ => simp [hasCRLFSP] at h
    | [c], _ => simp [hasCRLFSP] at h
    | [c, d], _ => simp [hasCRLFSP] at h
    | c1 :: c2 :: c3 :: r, ht => exact ht c1 c2 c3 r rfl

theorem hasCRLFSP_take (l : List Char) (k : Nat) (h : hasCRLFSP l = false) :
    hasCRLFSP (l.take k) = false := by
  by_contra hc
  have h1 : hasCRLFSP (l.take k) = true := by
    cases hv : hasCRLFSP (l.take k)
    · exact absurd hv hc
    · rfl
  have h2 := hasCRLFSP_append_left (l.take k) (l.drop k) h1
  rw [List.take_append_drop, h] at h2
  exact Bool.false_ne_true h2

theorem hasCRLFSP_drop (l : List Char) (k : Nat) (h : hasCRLFSP l = false) :
    hasCRLFSP (l.drop k) = false := by
  by_contra hc
  have h1 : hasCRLFSP (l.drop k) = true := by
    cases hv : hasCRLFSP (l.drop k)
    · exact absurd hv hc
    · rfl
  have h2 := hasCRLFSP_append_right (l.take k) (l.drop k) h1
  rw [List.take_append_drop, h] at h2
  exact Bool.false_ne_true h2

theorem unfoldICal_skip (ys : List Char) : ∀ (xs : List Char), hasCRLFSP xs = false →
    unfoldICal (xs ++ '\r' :: '\n' :: ' ' :: ys) = xs ++ unfoldICal ys := by
  intro xs
  induction xs with
  | nil =>
    intro _
    simp [unfoldICal]
  | cons x xs' ihs =>
    intro h
    rcases xs' with _ | ⟨b, _ | ⟨c, t⟩⟩
    · have hcond : ¬(x = '\r' ∧ ('\r' : Char) = '\n' ∧ ('\n' : Char) = ' ') := by
        rintro ⟨_, h2, _⟩
        exact absurd h2 (by decide)
      simp [unfoldICal, hcond]
    · have hcond : ¬(x = '\r' ∧ b = '\n' ∧ ('\r' : Char) = ' ') := by
        rintro ⟨_, _, h3⟩
        exact absurd h3 (by decide)
      have hcond2 : ¬(b = '\r' ∧ ('\r' : Char) = '\n' ∧ ('\n' : Char) = ' ') := by
        rintro ⟨_, h2, _⟩
        exact absurd h2 (by decide)
      simp [unfoldICal, hcond, hcond2]
    · have hparts : ((x = '\r' && b = '\n' && c = ' ') || hasCRLFSP (b :: c :: t)) = false := h
      rcases Bool.or_eq_false_iff.mp hparts with ⟨hx, h2⟩
      have hcond : ¬(x = '\r' ∧ b = '\n' ∧ c = ' ') := by
        rintro ⟨rfl, rfl, rfl⟩
        simp at hx
      show (if x = '\r' ∧ b = '\n' ∧ c = ' '
        then unfoldICal (t ++ '\r' :: '\n' :: ' ' :: ys)
        else x :: unfoldICal (b :: c :: (t ++ '\r' :: '\n' :: ' ' :: ys)))
        = (x :: b :: c :: t) ++ unfoldICal ys
      rw [if_neg hcond]
      have hih := ihs h2
      rw [show b :: c :: (t ++ '\r' :: '\n' :: ' ' :: ys)
        = (b :: c :: t) ++ '\r' :: '\n' :: ' ' :: ys from rfl, hih]
      rfl

theorem unfoldICal_id : ∀ (xs : List Char), hasCRLFSP xs = false → unfoldICal xs = xs := by
  intro xs
  induction xs using unfoldICal.induct with
  | case1 => intro _; rfl
  | case2 c => intro _; rfl
  | case3 c1 c2 => intro _; rfl
  | case4 c1 c2 c3 rest h ihs =>
    intro hf
    obtain ⟨rfl, rfl, rfl⟩ := h
    exfalso
    simp [hasCRLFSP] at hf
  | case5 c1 c2 c3 rest h ihs =>
    intro hf
    have hparts : ((c1 = '\r' && c2 = '\n' && c3 = ' ') || hasCRLFSP (c2 :: c3 :: rest)) = false := hf
    rcases Bool.or_eq_false_iff.mp hparts with ⟨hx, h2⟩
    show (if c1 = '\r' ∧ c2 = '\n' ∧ c3 = ' '
      then unfoldICal rest else c1 :: unfoldICal (c2 :: c3 :: rest)) = _
    rw [if_neg h, ihs h2]

theorem wrapRest_lines (n : Nat) : ∀ (r : List Char), r.length ≤ n →
    ∀ (a : List Char), a.length ≤ 75 →
    ∀ l ∈ splitCRLF (a ++ wrapRest r), l.length ≤ 75 := by
  induction n using Nat.strong_induction_on with
  | _ n ih =>
    intro r hrn a ha l hl
    cases r with
    | nil =>
      rw [show wrapRest [] = [] from rfl, List.append_nil] at hl
      exact le_trans (splitCRLF_len a l hl) ha
    | cons c cs =>
      rw [wrapRest_eq] at hl
      simp only [List.isEmpty_cons, Bool.false_eq_true, if_false] at hl
      rw [splitCRLF_append_crlf] at hl
      rcases List.mem_append.mp hl with hl | hl
      · exact le_trans (splitCRLF_len a l hl) ha
      · refine ih ((c :: cs).drop 74).length ?_ ((c :: cs).drop 74) le_rfl
          (' ' :: (c :: cs).take 74) ?_ l ?_
        · simp at hrn ⊢ <;> omega
        · simp <;> omega
        · simpa using hl

theorem unfold_wrapRest (n : Nat) : ∀ (r : List Char), r.length ≤ n → hasCRLFSP r = false →
    ∀ (a : List Char), hasCRLFSP a = false → unfoldICal (a ++ wrapRest r) = a ++ r := by
  induction n using Nat.strong_induction_on with
  | _ n ih =>
    intro r hrn hr a ha
    cases r with
    | nil =>
      rw [show wrapRest [] = [] from rfl, List.append_nil]
      exact unfoldICal_id a ha
    | cons c cs =>
      rw [wrapRest_eq]
      simp only [List.isEmpty_cons, Bool.false_eq_true, if_false]
      rw [unfoldICal_skip _ a ha]
      congr 1
      have hrec := ih ((c :: cs).drop 74).length (by simp at hrn ⊢; omega)
        ((c :: cs).drop 74) le_rfl (hasCRLFSP_drop _ _ hr)
        ((c :: cs).take 74) (hasCRLFSP_take _ _ hr)
      rw [hrec, List.take_append_drop]

theorem replaceZ_mem_T (cs : List Char) :
    'T' ∈ (cs.foldr (fun c acc =>
        if c = 'Z' then '+' :: '0' :: '0' :: ':' :: '0' :: '0' :: acc else c :: acc) []) ↔
      'T' ∈ cs := by
  induction cs with
  | nil => simp
  | cons c cs ih =>
    simp only [List.foldr]
    by_cases hc : c = 'Z'
    · subst hc
      rw [if_pos rfl]
      simp [List.mem_cons, ih, show ('T' : Char) ≠ '+' by decide,
        show ('T' : Char) ≠ '0' by decide, show ('T' : Char) ≠ ':' by decide,
        show ('T' : Char) ≠ 'Z' by decide]
    · rw [if_neg hc]
      simp [List.mem_cons, ih]

/-! ## Claim theorems -/

/-- Claim C7: writing filter `f` and page `p` to the URL via `updateURL`
and reading the query parameters back yields exactly filter `f` and page
`p` whenever `p > 1` (the stored decimal string parses back to `p`); when
`p = 1` the page parameter is omitted from the URL entirely. -/
theorem c7_url_roundtrip :
    ∀ (f : String) (p : Int) (u : URLState),
      (1 < p →
        (updateURL f p u).filter = some f ∧
        (updateURL f p u).page = some (intToStr p) ∧
        jsParseIntOr1 (updateURL f p u).page = p) ∧
      (p = 1 → (updateURL f p u).filter = some f ∧ (updateURL f p u).page = none) := by
  intro f p u
  constructor
  · intro hp
    have hpage : (updateURL f p u).page = some (intToStr p) := by
      simp [updateURL, hp]
    refine ⟨rfl, hpage, ?_⟩
    rw [hpage]
    have hrepr : intToStr p = ⟨natRepr p.toNat⟩ := by
      unfold intToStr
      rw [if_neg (by omega)]
    rw [hrepr]
    show (match jsParseInt ⟨natRepr p.toNat⟩ with
      | none => 1
      | some k => if k = 0 then 1 else k) = p
    rw [jsParseInt_natRepr]
    have hpt : ((p.toNat : Nat) : Int) = p := Int.toNat_of_nonneg (by omega)
    rw [hpt]
    show (if p = 0 then 1 else p) = p
    rw [if_neg (by omega)]
  · intro hp
    subst hp
    exact ⟨rfl, by simp [updateURL]⟩

/-- Claim C7 witness: the spec's own instance, filter `last_7_days` and
page 4 round-trip; page 1 is stored by omission. -/
theorem c7_url_roundtrip_witness :
    (1 : Int) < 4 ∧
    (updateURL "last_7_days" 4 ⟨none, none, []⟩).filter = some "last_7_days" ∧
    jsParseIntOr1 (updateURL "last_7_days" 4 ⟨none, none, []⟩).page = 4 ∧
    (updateURL "last_7_days" 1 ⟨none, none, []⟩).page = none := by
  have h4 := (c7_url_roundtrip "last_7_days" 4 ⟨none, none, []⟩).1 (by norm_num)
  have h1 := (c7_url_roundtrip "last_7_days" 1 ⟨none, none, []⟩).2 rfl
  exact ⟨by norm_num, h4.1, h4.2.2, h1.2⟩

/-- Claim C9 counterexample: switching the update-filter window from page
4 leaves `currentPage` at 4 and writes `page=4` back to the URL — no
pagination state is reset to page 1. -/
theorem c9_filter_keeps_page_cex :
    (updateFilter "last_7_days" st9).currentPage = 4 ∧
    (updateFilter "last_7_days" st9).url.page = some "4" ∧
    ¬ (updateFilter "last_7_days" st9).currentPage = 1 := by
  decide

/-- Claim C9 (amended): `updateFilter` switches the visible updates
section and rewrites the URL with the current page unchanged; it never
resets `currentPage` (the update windows themselves are unpaginated and
rendered in full). -/
theorem c9_updateFilter_preserves_page :
    ∀ (v : String) (st : PageState),
      (updateFilter v st).currentPage = st.currentPage ∧
      (updateFilter v st).activeSection = v ∧
      (updateFilter v st).url.filter = some v ∧
      (updateFilter v st).url.page =
        (if st.currentPage > 1 then some (intToStr st.currentPage) else none) := by
  intro v st
  exact ⟨rfl, rfl, rfl, rfl⟩

/-- Claim C3 evidence: for a non-empty unparseable date string,
`parseEventDateTime` yields an Invalid Date (`new Date` never throws into
the dead `catch`), so `generateICalendar` throws in `toISOString` instead
of falling back to "now"; the "now" fallback only covers an absent date. -/
theorem c3_unparseable_date_throws :
    parseEventDateTime "Not scheduled" "" now0 = none ∧
    generateICalendar c3Event now0 = none ∧
    parseEventDateTime "" "" now0 = some now0 := by
  decide

/-- Claim C8 counterexample: for an event with committee name
`"Committee on Finance"` and date `"2024-03-05"`, the download filename is
`hearing-123.ics` — derived from the event id, containing neither the
committee name nor the date. -/
theorem c8_filename_cex :
    actionFilename (addToCalendar c8Map 123 now0) = some "hearing-123.ics" ∧
    containsPat "Finance".data "hearing-123.ics".data = false ∧
    containsPat "2024".data "hearing-123.ics".data = false ∧
    c8Event.EventBodyName = "Committee on Finance" ∧
    c8Event.EventDate = "2024-03-05" := by
  decide

/-- Claim C8 (amended): for every exported entry, `addToCalendar` triggers
a file save whose filename is `hearing-<eventId>.ics` — derived from the
event id, not from the committee name or date — with extension `.ics`. -/
theorem c8_download_filename :
    ∀ (m : Int → Option JSEvent) (id : Int) (now : Instant) (ev : JSEvent) (ical : String),
      m id = some ev → generateICalendar ev now = some ical →
      addToCalendar m id now =
        some (CalAction.download ("hearing-" ++ intToStr id ++ ".ics") ical) ∧
      listSuffixB ".ics".data ("hearing-" ++ intToStr id ++ ".ics").data = true := by
  intro m id now ev ical h1 h2
  constructor
  · simp [addToCalendar, h1, h2]
  · rw [dataAppend]
    exact listSuffixB_append_self _ _

/-- Claim C8 witness: instantiation at the concrete table `c8Map`. -/
theorem c8_download_filename_witness :
    actionFilename (addToCalendar c8Map 123 now0) = some "hearing-123.ics" := by
  cases hg : generateICalendar c8Event now0 with
  | none => exact absurd hg (by decide)
  | some ical =>
    have h := (c8_download_filename c8Map 123 now0 c8Event ical (by decide) hg).1
    rw [h]
    show some ("hearing-" ++ intToStr 123 ++ ".ics") = some "hearing-123.ics"
    decide

/-- Claim C2 counterexample: `showPage` performs no clamping — invoking it
with page 0 while `totalPages = 3` leaves `currentPage = 0`, outside
`[1, totalPages]`. -/
theorem c2_showPage_no_clamp_cex :
    (showPage 0 (initializePagination 57 st0)).currentPage = 0 ∧
    (showPage 0 (initializePagination 57 st0)).totalPages = 3 ∧
    ¬ (1 ≤ (showPage 0 (initializePagination 57 st0)).currentPage) := by
  decide

/-- Claim C2 (amended): initialization from the URL's page parameter
clamps `currentPage` into `[1, totalPages]` for any integer (or garbage)
parameter whenever at least one item exists; `showPage` itself performs no
clamping and sets `currentPage` to exactly its argument. -/
theorem c2_pagination_clamp :
    (∀ (n : Nat) (st : PageState), 1 ≤ n → 1 ≤ st.itemsPerPage →
      1 ≤ (initializePagination n st).currentPage ∧
      (initializePagination n st).currentPage ≤ (initializePagination n st).totalPages) ∧
    (∀ (p : Int) (st : PageState), (showPage p st).currentPage = p) := by
  constructor
  · intro n st hn hipp
    have h1 : 1 ≤ ceilDiv n st.itemsPerPage := by
      unfold ceilDiv
      rw [Nat.le_div_iff_mul_le (by omega)]
      omega
    have hcp : (initializePagination n st).currentPage =
        max 1 (min (jsParseIntOr1 st.url.page) ((ceilDiv n st.itemsPerPage : Nat) : Int)) := rfl
    have htp : (initializePagination n st).totalPages =
        ((ceilDiv n st.itemsPerPage : Nat) : Int) := rfl
    rw [hcp, htp]
    refine ⟨le_max_left 1 _, max_le (by exact_mod_cast h1) (min_le_right _ _)⟩
  · intro p st
    rfl

/-- Claim C4: `get_event_time_display` is total on strings: absent/empty
input yields `"Time TBD"`; otherwise the formats `%I:%M %p`, `%H:%M:%S`
and `%H:%M` are attempted in that order (an ordered first-success-wins
parser cascade), the first successful parse is rendered as the canonical
zero-padded `hh:mm AM/PM` string, and if none match the raw string is
returned unchanged; in particular both `"14:30:00"` and `"2:30 PM"`
render as `"02:30 PM"`. -/
theorem c4_parseTime_spec :
    (get_event_time_display none = "Time TBD") ∧
    (get_event_time_display (some "") = "Time TBD") ∧
    (∀ s : String, s ≠ "" →
      get_event_time_display (some s) =
        match firstSuccess [strptimeIMp, strptimeHMS, strptimeHM] s with
        | some t => strftime12h t.hour t.minute
        | none => s) ∧
    get_event_time_display (some "14:30:00") = "02:30 PM" ∧
    get_event_time_display (some "2:30 PM") = "02:30 PM" := by
  refine ⟨rfl, rfl, ?_, by decide, by decide⟩
  intro s hs
  show (if s = "" then "Time TBD" else
    match strptimeIMp s with
    | some t => strftime12h t.hour t.minute
    | none =>
      match strptimeHMS s with
      | some t => strftime12h t.hour t.minute
      | none =>
        match strptimeHM s with
        | some t => strftime12h t.hour t.minute
        | none => s) = _
  rw [if_neg hs]
  cases h1 : strptimeIMp s with
  | some t => simp [firstSuccess, h1]
  | none =>
    cases h2 : strptimeHMS s with
    | some t => simp [firstSuccess, h1, h2]
    | none =>
      cases h3 : strptimeHM s with
      | some t => simp [firstSuccess, h1, h2, h3]
      | none => simp [firstSuccess, h1, h2, h3]

/-- Claim C4 witness: at garbage input no parser matches and the raw
string comes back unchanged. -/
theorem c4_parseTime_spec_witness :
    ("garbage" : String) ≠ "" ∧ get_event_time_display (some "garbage") = "garbage" := by
  refine ⟨by decide, ?_⟩
  have h := c4_parseTime_spec.2.2.1 "garbage" (by decide)
  rw [h]
  decide

/-- Claim C5: `format_display_date` selects the ISO-timestamp path exactly
when the input contains the literal character `'T'` (the `Z` to `+00:00`
normalization cannot change that test) and the bare `YYYY-MM-DD` path
otherwise; unparseable input is returned verbatim, absent input yields
`"TBD"`, and `format_display_date (some "2024-03-05") false` is
`"Tuesday, March 05, 2024"`. -/
theorem c5_parseDate_spec :
    (∀ it, format_display_date none it = "TBD") ∧
    (∀ s : String, 'T' ∈ (replaceZ s).data ↔ 'T' ∈ s.data) ∧
    (∀ (s : String) (it : Bool), s ≠ "" → s.data.contains 'T' = true →
      format_display_date (some s) it =
        (match fromisoformat (replaceZ s) with
         | some dt => if it then strftimeLongDateTime dt else strftimeLongDate dt
         | none => s)) ∧
    (∀ (s : String) (it : Bool), s ≠ "" → s.data.contains 'T' = false →
      format_display_date (some s) it =
        (match strptimeYmd s with
         | some dt => if it then strftimeLongDateTime dt else strftimeLongDate dt
         | none => s)) ∧
    format_display_date (some "2024-03-05") false = "Tuesday, March 05, 2024" := by
  refine ⟨fun it => rfl, ?_, ?_, ?_, by decide⟩
  · intro s
    exact replaceZ_mem_T s.data
  · intro s it hs hT
    show (if s = "" then "TBD" else
      match (if s.data.contains 'T' then fromisoformat (replaceZ s) else strptimeYmd s) with
      | some dt => if it then strftimeLongDateTime dt else strftimeLongDate dt
      | none => s) = _
    rw [if_neg hs, hT]
    simp
  · intro s it hs hT
    show (if s = "" then "TBD" else
      match (if s.data.contains 'T' then fromisoformat (replaceZ s) else strptimeYmd s) with
      | some dt => if it then strftimeLongDateTime dt else strftimeLongDate dt
      | none => s) = _
    rw [if_neg hs, hT]
    simp

/-- Claim C5 witness: a full timestamp takes the ISO path and renders in
long form. -/
theorem c5_parseDate_spec_witness :
    ("2024-03-05T10:00:00Z" : String) ≠ "" ∧
    ("2024-03-05T10:00:00Z" : String).data.contains 'T' = true ∧
    format_display_date (some "2024-03-05T10:00:00Z") true =
      "Tuesday, March 05, 2024 at 10:00 AM" := by
  refine ⟨by decide, by decide, ?_⟩
  have h := c5_parseDate_spec.2.2.1 "2024-03-05T10:00:00Z" true (by decide) (by decide)
  rw [h]
  decide

/-- Claim C6 counterexample: the round-trip fails as universally stated —
an input line that itself contains the CR LF SPACE sequence is returned
unchanged by the folding function (it is short), but rejoining removes
that sequence, so the original is not recovered. -/
theorem c6_roundtrip_cex :
    wrapLC c6cex = c6cex ∧
    unfoldICal (wrapLC c6cex) = ['a', 'b'] ∧
    ¬ unfoldICal (wrapLC c6cex) = c6cex := by
  decide

/-- Claim C6 (amended): every content line produced by the folding
function is at most 75 characters long; and for every input line that
does not already contain the CR LF SPACE sequence, rejoining the folded
continuations (removing every CRLF-plus-single-leading-space) recovers
the original pre-fold line exactly. -/
theorem c6_fold_spec :
    ∀ (s : List Char),
      (∀ l ∈ splitCRLF (wrapLC s), l.length ≤ 75) ∧
      (hasCRLFSP s = false → unfoldICal (wrapLC s) = s) := by
  intro s
  constructor
  · intro l hl
    by_cases hlen : s.length ≤ 75
    · rw [wrapLC, if_pos hlen] at hl
      exact le_trans (splitCRLF_len s l hl) hlen
    · rw [wrapLC, if_neg hlen] at hl
      exact wrapRest_lines (s.drop 75).length (s.drop 75) le_rfl (s.take 75)
        (by simp) l hl
  · intro hs
    by_cases hlen : s.length ≤ 75
    · rw [wrapLC, if_pos hlen]
      exact unfoldICal_id s hs
    · rw [wrapLC, if_neg hlen]
      rw [unfold_wrapRest (s.drop 75).length (s.drop 75) le_rfl
        (hasCRLFSP_drop _ _ hs) (s.take 75) (hasCRLFSP_take _ _ hs)]
      exact List.take_append_drop 75 s

/-- Claim C6 witness: a 100-character line folds, every physical line is
short enough, and unfolding recovers it. -/
theorem c6_fold_spec_witness :
    hasCRLFSP c6wit = false ∧ unfoldICal (wrapLC c6wit) = c6wit := by
  exact ⟨by decide, (c6_fold_spec c6wit).2 (by decide)⟩

theorem wrapICalLine_short (x : String) (h : x.length ≤ 75) : wrapICalLine x = x := by
  cases x with
  | mk d =>
    show (⟨wrapLC d⟩ : String) = ⟨d⟩
    rw [wrapLC, if_pos (by exact h)]

theorem icalJoin_contains_head (x : String) (post : List String) :
    containsPat x.data (icalJoin (x :: post)).data = true := by
  cases post with
  | nil =>
    have hp := listPrefixB_self_append x.data []
    rw [List.append_nil] at hp
    exact containsPat_of_prefixB _ _ hp
  | cons b rest =>
    rw [show icalJoin (x :: b :: rest) = x ++ "\r\n" ++ icalJoin (b :: rest) from rfl]
    rw [dataAppend, dataAppend, List.append_assoc]
    exact containsPat_self_append _ _

theorem icalJoin_contains_cons (a x : String) (rest : List String)
    (h : containsPat x.data (icalJoin rest).data = true) (hne : rest ≠ []) :
    containsPat x.data (icalJoin (a :: rest)).data = true := by
  cases rest with
  | nil => exact absurd rfl hne
  | cons b r =>
    rw [show icalJoin (a :: b :: r) = a ++ "\r\n" ++ icalJoin (b :: r) from rfl]
    rw [dataAppend, dataAppend, List.append_assoc]
    exact containsPat_append_left _ _ _ (containsPat_append_left _ _ _ h)

theorem icalJoin_contains_mem (x : String) : ∀ (L : List String), x ∈ L →
    containsPat x.data (icalJoin L).data = true := by
  intro L
  induction L with
  | nil => intro h; simp at h
  | cons a rest ihj =>
    intro h
    rcases List.mem_cons.mp h with rfl | h
    · exact icalJoin_contains_head x rest
    · cases rest with
      | nil => simp at h
      | cons b r => exact icalJoin_contains_cons a x (b :: r) (ihj h) (by simp)

theorem generateICalendar_eq (ev : JSEvent) (now dt : Instant)
    (hp : parseEventDateTime ev.EventDate ev.EventTime now = some dt) :
    generateICalendar ev now = some (icalJoin
      ["BEGIN:VCALENDAR",
       "VERSION:2.0",
       "PRODID:-//NYC Legistar Monitor//Hearing Calendar 1.0//EN",
       "METHOD:PUBLISH",
       "BEGIN:VEVENT",
       "UID:" ++ (jsTimestamp dt ++ "-" ++ intToStr ev.EventId ++ "@legistar-monitor.github.io"),
       "DTSTAMP:" ++ jsTimestamp now,
       "DTSTART:" ++ jsTimestamp dt,
       "DTEND:" ++ jsTimestamp (addMs (60 * 60 * 1000) dt),
       wrapICalLine ("SUMMARY:" ++ ev.EventBodyName),
       wrapICalLine ("DESCRIPTION:" ++ jsDescription ev),
       wrapICalLine ("LOCATION:" ++ (if ev.EventLocation ≠ "" then ev.EventLocation else "TBD")),
       "END:VEVENT",
       "END:VCALENDAR"]) := by
  simp only [generateICalendar]
  rw [hp]

/-- Claim C1 counterexample: a topic containing a comma is emitted
unescaped into the DESCRIPTION field, and the backslash-escaped form the
claim requires (which is what the spec's escaping rule produces) is
absent from the generated document. -/
theorem c1_no_escaping_cex :
    (generateICalendar c1Event now0).map
        (fun s => containsPat "DESCRIPTION:a,b".data s.data) = some true ∧
    (generateICalendar c1Event now0).map
        (fun s => containsPat "DESCRIPTION:a\\,b".data s.data) = some false ∧
    specEscapeICalText "a,b" = "a\\,b" ∧
    c1Event.SyntheticMeetingTopic = "a,b" := by
  decide

/-- Claim C1 (amended): `generateICalendar` performs no iCalendar
text-escaping at all — the SUMMARY, DESCRIPTION and LOCATION values are
concatenated into their content lines verbatim (subject only to line
folding, so stated here for values short enough not to fold); backslashes,
commas, semicolons and newlines pass through unchanged, and consequently a
second application also introduces no escaping. -/
theorem c1_values_inserted_verbatim :
    ∀ (ev : JSEvent) (now : Instant) (s : String),
      generateICalendar ev now = some s →
      (("SUMMARY:" ++ ev.EventBodyName).length ≤ 75 →
        containsPat ("SUMMARY:" ++ ev.EventBodyName).data s.data = true) ∧
      (("DESCRIPTION:" ++ jsDescription ev).length ≤ 75 →
        containsPat ("DESCRIPTION:" ++ jsDescription ev).data s.data = true) ∧
      (("LOCATION:" ++ (if ev.EventLocation ≠ "" then ev.EventLocation else "TBD")).length ≤ 75 →
        containsPat ("LOCATION:" ++ (if ev.EventLocation ≠ "" then ev.EventLocation else "TBD")).data
          s.data = true) := by
  intro ev now s hg
  cases hp : parseEventDateTime ev.EventDate ev.EventTime now with
  | none =>
    rw [show generateICalendar ev now =
      (match parseEventDateTime ev.EventDate ev.EventTime now with
       | none => none
       | some dt => generateICalendar ev now) from by rw [hp]; simp only [generateICalendar]; rw [hp],
      hp] at hg
    simp at hg
  | some dt =>
    have hgeq := generateICalendar_eq ev now dt hp
    have hs : s = icalJoin
      ["BEGIN:VCALENDAR",
       "VERSION:2.0",
       "PRODID:-//NYC Legistar Monitor//Hearing Calendar 1.0//EN",
       "METHOD:PUBLISH",
       "BEGIN:VEVENT",
       "UID:" ++ (jsTimestamp dt ++ "-" ++ intToStr ev.EventId ++ "@legistar-monitor.github.io"),
       "DTSTAMP:" ++ jsTimestamp now,
       "DTSTART:" ++ jsTimestamp dt,
       "DTEND:" ++ jsTimestamp (addMs (60 * 60 * 1000) dt),
       wrapICalLine ("SUMMARY:" ++ ev.EventBodyName),
       wrapICalLine ("DESCRIPTION:" ++ jsDescription ev),
       wrapICalLine ("LOCATION:" ++ (if ev.EventLocation ≠ "" then ev.EventLocation else "TBD")),
       "END:VEVENT",
       "END:VCALENDAR"] := Option.some.inj (hgeq.symm.trans hg).symm
    subst hs
    refine ⟨fun hS => ?_, fun hD => ?_, fun hL => ?_⟩
    · rw [wrapICalLine_short _ hS]
      exact icalJoin_contains_mem _ _ (by simp)
    · rw [wrapICalLine_short _ hD]
      exact icalJoin_contains_mem _ _ (by simp)
    · rw [wrapICalLine_short _ hL]
      exact icalJoin_contains_mem _ _ (by simp)

/-- Claim C1 witness: the raw (unescaped) DESCRIPTION value of `c1Event`
appears verbatim in the generated document. -/
theorem c1_values_inserted_verbatim_witness :
    (generateICalendar c1Event now0).map
        (fun s => containsPat ("DESCRIPTION:" ++ jsDescription c1Event).data s.data) = some true := by
  cases hg : generateICalendar c1Event now0 with
  | none => exact absurd hg (by decide)
  | some s =>
    have h := (c1_values_inserted_verbatim c1Event now0 s hg).2.1 (by decide)
    simp only [Option.map_some']
    rw [h]

/-- Claim C10: `generate_event_card` emits the Add to Calendar button if
and only if the card is not an update card, the entry's status is exactly
`"active"`, and the entry has a truthy (non-empty) `EventDate`.  The
button is observed as the marker string `Add to Calendar` in the emitted
HTML; the hypothesis excludes entries whose own data smuggles that marker
into the rest of the card. -/
theorem c10_button_iff :
    ∀ (e : EventEntry) (u : Bool),
      containsPat "Add to Calendar".data (cardPre e ++ cardPost e u).data = false →
      (containsPat "Add to Calendar".data (generate_event_card e u).data = true ↔
        (u = false ∧ e.current_status = some "active" ∧ pyTruthy e.event_data.EventDate = true)) := by
  intro e u hclean
  constructor
  · intro hcont
    by_cases hb : buttonCond e u = true
    · unfold buttonCond at hb
      simp only [Bool.and_eq_true, Bool.not_eq_true', beq_iff_eq] at hb
      exact ⟨hb.1.1, hb.1.2, hb.2⟩
    · have hb' : buttonCond e u = false := by
        cases hv : buttonCond e u
        · rfl
        · exact absurd hv hb
      rw [show generate_event_card e u =
        cardPre e ++ (if buttonCond e u then calendarBtn e else "") ++ cardPost e u from rfl,
        hb'] at hcont
      simp only [Bool.false_eq_true, if_false] at hcont
      rw [show cardPre e ++ "" ++ cardPost e u = cardPre e ++ cardPost e u from by
        rw [String.append_empty]] at hcont
      exact absurd (hcont.symm.trans hclean) (by simp)
  · rintro ⟨hu, hst, hdt⟩
    have hb : buttonCond e u = true := by
      unfold buttonCond
      subst hu
      simp [hst, hdt]
    rw [show generate_event_card e u =
      cardPre e ++ (if buttonCond e u then calendarBtn e else "") ++ cardPost e u from rfl, hb]
    simp only [if_true]
    rw [show calendarBtn e =
      ("<button class=\"btn btn-sm btn-outline-success\" onclick=\"addToCalendar("
        ++ eventIdStr e ++ ")\">") ++ "Add to Calendar" ++ "</button>" from rfl]
    simp only [dataAppend, List.append_assoc]
    exact containsPat_append_left _ _ _ (containsPat_append_left _ _ _
      (containsPat_append_left _ _ _ (containsPat_self_append _ _)))

/-- Claim C10 witness: an active entry with a date, containing no marker
text of its own, gets the button. -/
theorem c10_button_iff_witness :
    containsPat "Add to Calendar".data (cardPre c10Entry ++ cardPost c10Entry false).data = false ∧
    containsPat "Add to Calendar".data (generate_event_card c10Entry false).data = true := by
  refine ⟨by decide, ?_⟩
  exact (c10_button_iff c10Entry false (by decide)).mpr ⟨rfl, rfl, by decide⟩

/-- Claim C2 witness: instantiation with 57 items and a URL asking for
page 9, which clamps to page 3 of 3. -/
theorem c2_pagination_clamp_witness :
    1 ≤ (57 : Nat) ∧ 1 ≤ st0.itemsPerPage ∧
    1 ≤ (initializePagination 57 st0).currentPage ∧
    (initializePagination 57 st0).currentPage ≤ (initializePagination 57 st0).totalPages := by
  have h := c2_pagination_clamp.1 57 st0 (by norm_num) (by decide)
  exact ⟨by norm_num, by decide, h.1, h.2⟩

end Legistar
